import Mathlib

/-!
Verification of the speech-session transcription coordinator
(src/src-tauri/src/speech/mod.rs).

The Rust module is shallowly embedded below.  Conventions:
  machine bytes (u8) become Fin 256; f32 samples become Rat; the
  filesystem becomes an explicit record threaded through each operation
  (writes are modelled as always succeeding); the async mutex around the
  shared state becomes plain state passing; external collaborators
  (the hound WAV parser, the whisper engine, the clock and the UUID
  generator) become explicit parameters describing their outcome.
-/

deriving instance DecidableEq for Except

abbrev Byte := Fin 256

/-- Model of Rust str::trim: drop whitespace from both ends. -/
def strTrim (s : String) : String :=
  ⟨((s.data.dropWhile Char.isWhitespace).reverse.dropWhile Char.isWhitespace).reverse⟩

/-- Model of Rust str::to_lowercase (ASCII-faithful). -/
def strToLower (s : String) : String := ⟨s.data.map Char.toLower⟩

/-- Model of Rust String::is_empty. -/
def strIsEmpty (s : String) : Bool := s.data.isEmpty

/-- Model of Rust str::ends_with. -/
def strEndsWith (s suffix : String) : Bool := suffix.data.isSuffixOf s.data

/-- Model of Rust str::split_once with a comma pattern: split at the first
comma, returning the parts before and after it. -/
def splitOnceComma : List Char → Option (List Char × List Char)
  | [] => none
  | c :: rest =>
    if c = ',' then some ([], rest)
    else (splitOnceComma rest).map (fun p => (c :: p.1, p.2))

theorem splitOnceComma_append (l1 l2 : List Char) (h : ',' ∉ l1) :
    splitOnceComma (l1 ++ ',' :: l2) = some (l1, l2) := by
  induction l1 with
  | nil => simp [splitOnceComma]
  | cons c rest ih =>
    simp only [List.mem_cons, not_or] at h
    simp [splitOnceComma, Ne.symm h.1, ih h.2]

/-! ### Base64 (model of the external base64 STANDARD engine)

The repository encodes audio with the standard padded base64 alphabet and
decodes it strictly.  The codec is modelled concretely so that the
export/import round trip can be proved end to end. -/

def b64chars : List Char :=
  "ABCDEFGHIJKLMNOPQRSTUVWXYZabcdefghijklmnopqrstuvwxyz0123456789+/".data

def encChar (n : Fin 64) : Char := b64chars.getD n.val 'A'

def decChar (c : Char) : Option (Fin 64) :=
  match b64chars.findIdx? (· = c) with
  | some i => if h : i < 64 then some ⟨i, h⟩ else none
  | none => none

theorem decChar_encChar : ∀ n : Fin 64, decChar (encChar n) = some n := by decide

theorem encChar_ne_pad : ∀ n : Fin 64, encChar n ≠ '=' := by decide

def b64encodeList : List Byte → List Char
  | [] => []
  | [a] =>
    [encChar ⟨a.val / 4, by have := a.isLt; omega⟩,
     encChar ⟨a.val % 4 * 16, by have := a.isLt; omega⟩, '=', '=']
  | [a, b] =>
    [encChar ⟨a.val / 4, by have := a.isLt; omega⟩,
     encChar ⟨a.val % 4 * 16 + b.val / 16, by have := a.isLt; have := b.isLt; omega⟩,
     encChar ⟨b.val % 16 * 4, by have := b.isLt; omega⟩, '=']
  | a :: b :: c :: rest =>
    encChar ⟨a.val / 4, by have := a.isLt; omega⟩ ::
    encChar ⟨a.val % 4 * 16 + b.val / 16, by have := a.isLt; have := b.isLt; omega⟩ ::
    encChar ⟨b.val % 16 * 4 + c.val / 64, by have := b.isLt; have := c.isLt; omega⟩ ::
    encChar ⟨c.val % 64, by omega⟩ :: b64encodeList rest

def b64decode : List Char → Option (List Byte)
  | [] => some []
  | c1 :: c2 :: c3 :: c4 :: rest =>
    match decChar c1, decChar c2 with
    | some d1, some d2 =>
      if c3 = '=' then
        if c4 = '=' ∧ rest = [] then
          if d2.val % 16 = 0 then
            some [⟨d1.val * 4 + d2.val / 16, by have := d1.isLt; have := d2.isLt; omega⟩]
          else none
        else none
      else
        match decChar c3 with
        | some d3 =>
          if c4 = '=' then
            if rest = [] then
              if d3.val % 4 = 0 then
                some [⟨d1.val * 4 + d2.val / 16, by have := d1.isLt; have := d2.isLt; omega⟩,
                      ⟨d2.val % 16 * 16 + d3.val / 4, by have := d2.isLt; have := d3.isLt; omega⟩]
              else none
            else none
          else
            match decChar c4 with
            | some d4 =>
              (b64decode rest).map (fun bs =>
                ⟨d1.val * 4 + d2.val / 16, by have := d1.isLt; have := d2.isLt; omega⟩ ::
                ⟨d2.val % 16 * 16 + d3.val / 4, by have := d2.isLt; have := d3.isLt; omega⟩ ::
                ⟨d3.val % 4 * 64 + d4.val, by have := d3.isLt; have := d4.isLt; omega⟩ :: bs)
            | none => none
        | none => none
    | _, _ => none
  | _ => none

theorem b64_roundtrip : ∀ bs : List Byte, b64decode (b64encodeList bs) = some bs
  | [] => rfl
  | [a] => by
    have ha := a.isLt
    have h2 : (a.val % 4 * 16) % 16 = 0 := by omega
    simp only [b64encodeList, b64decode, decChar_encChar, eq_self_iff_true, and_self,
      if_true, Fin.val_mk, h2, Option.some.injEq, List.cons.injEq, and_true]
    apply Fin.ext
    simp only [Fin.val_mk]
    omega
  | [a, b] => by
    have ha := a.isLt
    have hb := b.isLt
    have hne := encChar_ne_pad ⟨b.val % 16 * 4, by omega⟩
    have h3 : (b.val % 16 * 4) % 4 = 0 := by omega
    simp only [b64encodeList, b64decode, decChar_encChar, if_neg hne, eq_self_iff_true,
      if_true, Fin.val_mk, h3, Option.some.injEq, List.cons.injEq, and_true]
    constructor
    · apply Fin.ext; simp only [Fin.val_mk]; omega
    · apply Fin.ext; simp only [Fin.val_mk]; omega
  | a :: b :: c :: rest => by
    have ih := b64_roundtrip rest
    have ha := a.isLt
    have hb := b.isLt
    have hc := c.isLt
    have hne3 := encChar_ne_pad ⟨b.val % 16 * 4 + c.val / 64, by omega⟩
    have hne4 := encChar_ne_pad ⟨c.val % 64, by omega⟩
    simp only [b64encodeList, b64decode, decChar_encChar, if_neg hne3, if_neg hne4, ih,
      Option.map_some', Option.some.injEq, List.cons.injEq, and_true]
    refine ⟨?_, ?_, ?_⟩
    · apply Fin.ext; simp only [Fin.val_mk]; omega
    · apply Fin.ext; simp only [Fin.val_mk]; omega
    · apply Fin.ext; simp only [Fin.val_mk]; omega

/-! ### Error taxonomy and data model (mirrors the Rust declarations) -/

/-- Embedding of the SpeechError enum.  Variants that only carry an error
message keep the message as a String argument. -/
inductive SpeechError
  | Io (msg : String)
  | Network (msg : String)
  | Audio (msg : String)
  | Whisper (msg : String)
  | Json (msg : String)
  | Join (msg : String)
  | UnsupportedBitDepth (bits : Nat)
  | UnsupportedLanguage (lang : String)
  | InvalidModelPath
  | Tauri (msg : String)
  | SessionNotFound (id : String)
  | TranscriptionInProgress
  | TranscriptionCancelled
deriving DecidableEq, Repr

inductive SpeechLanguage
  | English
  | Chinese
deriving DecidableEq, Repr

def SpeechLanguage.code : SpeechLanguage → String
  | .English => "en"
  | .Chinese => "zh"

def SpeechLanguage.display_name : SpeechLanguage → String
  | .English => "英语"
  | .Chinese => "中文"

/-- Embedding of the TryFrom implementation for language tags. -/
def SpeechLanguage.tryFrom (value : String) : Except SpeechError SpeechLanguage :=
  let lower := strToLower value
  if lower = "en" ∨ lower = "english" then .ok .English
  else if lower = "zh" ∨ lower = "zh-cn" ∨ lower = "chinese" ∨ lower = "zh-hans" then .ok .Chinese
  else .error (.UnsupportedLanguage lower)

structure TranscriptSegment where
  start : Rat
  stop : Rat
  text : String
deriving DecidableEq, Repr

structure SpeechSession where
  id : String
  title : String
  language : SpeechLanguage
  transcript : String
  segments : List TranscriptSegment
  audio_path : String
  created_at : String
deriving DecidableEq, Repr

structure SpeechSessionBackup where
  id : String
  title : String
  language : SpeechLanguage
  transcript : String
  segments : List TranscriptSegment
  created_at : String
  audio_filename : String
  audio_base64 : String
deriving DecidableEq, Repr

structure TranscribeAudioPayload where
  audio_base64 : String
  language : String
  session_title : Option String
deriving DecidableEq, Repr

structure UpdateSpeechSessionPayload where
  session_id : String
  transcript : Option String
  title : Option String
deriving DecidableEq, Repr

structure TranscriptionResult where
  transcript : String
  segments : List TranscriptSegment
deriving DecidableEq, Repr

/-- The active transcription record: holds the cancellation flag (the
shared AtomicBool is modelled as a plain stored Bool). -/
structure ActiveTranscription where
  cancel_flag : Bool
deriving DecidableEq, Repr

/-- The mutex-guarded shared state. -/
structure SpeechState where
  sessions : List SpeechSession
  active_transcription : Option ActiveTranscription
deriving DecidableEq, Repr

/-! ### Filesystem model

Paths are relative to the base storage directory.  The durable index
sessions.json is modelled separately as its parsed content; other files
live in an association list.  Writes always succeed. -/

inductive FileData
  | bytes (b : List Byte)
  | text (s : String)
  | segs (l : List TranscriptSegment)
deriving DecidableEq, Repr

structure Fs where
  sessionsFile : List SpeechSession
  files : List (String × FileData)
  dirs : List String
deriving DecidableEq, Repr

def Fs.writeFile (fs : Fs) (path : String) (d : FileData) : Fs :=
  { fs with files := (path, d) :: fs.files.filter (fun p => p.1 ≠ path) }

def Fs.readFile (fs : Fs) (path : String) : Option FileData :=
  (fs.files.find? (fun p => p.1 = path)).map (·.2)

def Fs.createDir (fs : Fs) (path : String) : Fs :=
  { fs with dirs := if path ∈ fs.dirs then fs.dirs else path :: fs.dirs }

def Fs.dirExists (fs : Fs) (path : String) : Bool := path ∈ fs.dirs

def Fs.removeDirAll (fs : Fs) (path : String) : Fs :=
  { fs with
    dirs := fs.dirs.filter (fun d => d ≠ path),
    files := fs.files.filter (fun p => ¬ p.1.startsWith (path ++ "/")) }

/-- Trace events recording the order of admission and filesystem effects
of one transcription call. -/
inductive FsEvent
  | acquireSlot
  | releaseSlot
  | createDirEv (path : String)
  | writeFileEv (path : String)
  | removeDirEv (path : String)
deriving DecidableEq, Repr

/-! ### Audio decoder / resampler -/

inductive SampleFormat
  | Float
  | Int
deriving DecidableEq, Repr

/-- Result of the external hound WAV parser on the raw container bytes,
as consumed by decode_wav_to_mono_f32: the header fields and the sample
payload.  When the header declares a float format the floatSamples list
is used; when it declares an integer format the intSamples list is used. -/
structure WavData where
  channels : Nat
  sampleRate : Nat
  bitsPerSample : Nat
  format : SampleFormat
  floatSamples : List Rat
  intSamples : List Int
deriving DecidableEq, Repr

/-- Model of Rust slice::chunks via a fuel argument (the fuel only serves
termination; with positive chunk size any fuel at least the list length
gives the real chunk decomposition). -/
def chunksOfAux (n : Nat) : Nat → List α → List (List α)
  | _, [] => []
  | 0, _ => []
  | fuel + 1, l => l.take n :: chunksOfAux n fuel (l.drop n)

def chunksOf (n : Nat) (l : List α) : List (List α) := chunksOfAux n l.length l

theorem chunksOfAux_fuel (n : Nat) (hn : 0 < n) :
    ∀ (fuel fuel' : Nat) (l : List α), l.length ≤ fuel → l.length ≤ fuel' →
      chunksOfAux n fuel l = chunksOfAux n fuel' l := by
  intro fuel
  induction fuel with
  | zero =>
    intro fuel' l hf hf'
    have : l = [] := List.eq_nil_of_length_eq_zero (Nat.le_zero.mp hf)
    subst this
    cases fuel' <;> rfl
  | succ f ih =>
    intro fuel' l hf hf'
    cases l with
    | nil => cases fuel' <;> rfl
    | cons x xs =>
      cases fuel' with
      | zero => simp at hf'
      | succ f' =>
        simp only [chunksOfAux]
        congr 1
        apply ih
        · simp only [List.length_drop, List.length_cons]
          simp only [List.length_cons] at hf
          omega
        · simp only [List.length_drop, List.length_cons]
          simp only [List.length_cons] at hf'
          omega

theorem chunksOf_cons (n : Nat) (hn : 0 < n) (l : List α) (hl : l ≠ []) :
    chunksOf n l = l.take n :: chunksOf n (l.drop n) := by
  cases l with
  | nil => exact absurd rfl hl
  | cons x xs =>
    simp only [chunksOf, List.length_cons, chunksOfAux]
    congr 1
    apply chunksOfAux_fuel n hn
    · simp only [List.length_drop, List.length_cons]; omega
    · exact Nat.le_refl _

theorem chunksOf_nil (n : Nat) : chunksOf n ([] : List α) = [] := rfl

/-- Embedding of reduce_channels: average each frame of the interleaved
buffer into one sample; a channel count of at most one returns the buffer
unchanged. -/
def reduce_channels (samples : List Rat) (channels : Nat) : List Rat :=
  if channels ≤ 1 then samples
  else (chunksOf channels samples).map (fun chunk => chunk.sum / (channels : Rat))

/-- Two's-complement wrap of an integer into the i32 range, modelling
release-mode overflow of Rust i32 arithmetic. -/
def i32_wrap (n : Int) : Int := (n + 2 ^ 31) % 2 ^ 32 - 2 ^ 31

/-- Embedding of decode_wav_to_mono_f32: reject a zero channel count,
normalize integer samples (dividing by the signed maximum for 8 and 16
bits, and for 24 and 32 bits by the i32 value 2_i32.pow(bits - 1), which
the source computes in i32 arithmetic and therefore wraps for 32 bits),
reject other integer bit depths, downmix to mono, and return the
original sample rate.  A hound parse failure of the container is an
audio format error. -/
def decode_wav_to_mono_f32 (parsed : Except String WavData) :
    Except SpeechError (List Rat × Nat) :=
  match parsed with
  | .error e => .error (.Audio e)
  | .ok w =>
    if w.channels = 0 then .error (.Audio "音频通道数无效")
    else
      match w.format with
      | .Float =>
        if w.channels = 1 then .ok (w.floatSamples, w.sampleRate)
        else .ok ((chunksOf w.channels w.floatSamples).map
          (fun chunk => chunk.sum / (w.channels : Rat)), w.sampleRate)
      | .Int =>
        if w.bitsPerSample = 8 then
          .ok (reduce_channels (w.intSamples.map (fun v => (v : Rat) / 127)) w.channels,
               w.sampleRate)
        else if w.bitsPerSample = 16 then
          .ok (reduce_channels (w.intSamples.map (fun v => (v : Rat) / 32767)) w.channels,
               w.sampleRate)
        else if w.bitsPerSample = 24 ∨ w.bitsPerSample = 32 then
          let scale : Int := i32_wrap (2 ^ (w.bitsPerSample - 1))
          .ok (reduce_channels
                 (w.intSamples.map (fun v => (v : Rat) / (scale : Rat)))
                 w.channels,
               w.sampleRate)
        else .error (.UnsupportedBitDepth w.bitsPerSample)

/-- Embedding of resample_audio: linear interpolation from the source rate
to the target rate, stopping early when the source index runs out. -/
def resample_audio (samples : List Rat) (from_rate to_rate : Nat) : List Rat :=
  if samples.isEmpty ∨ from_rate = to_rate then samples
  else
    let ratio : Rat := (from_rate : Rat) / (to_rate : Rat)
    let target_len : Nat := (round ((samples.length : Rat) / ratio)).toNat
    (List.range target_len).filterMap (fun i =>
      let src_pos : Rat := (i : Rat) * ratio
      let src_idx : Nat := (Rat.floor src_pos).toNat
      if src_idx ≥ samples.length then none
      else
        let next_idx : Nat := min (src_idx + 1) (samples.length - 1)
        let frac : Rat := src_pos - (src_idx : Rat)
        let s0 := samples.getD src_idx 0
        let s1 := samples.getD next_idx 0
        some (s0 + (s1 - s0) * frac))

/-! ### Transcription (blocking worker) -/

/-- One timestamped segment produced by the external whisper engine.
Timestamps are in centiseconds as returned by the engine. -/
structure EngineSegment where
  start_ts : Int
  end_ts : Int
  text : String
deriving DecidableEq, Repr

/-- Outcome of the external whisper engine for one run: the context (or
state) creation failed, the full inference call failed, or it produced a
list of segments. -/
inductive EngineOutcome
  | ctxError (msg : String)
  | failure (msg : String)
  | success (segments : List EngineSegment)
deriving DecidableEq, Repr

/-- Embedding of the segment-collection loop at the end of
transcribe_blocking: trim each segment text, append non-empty texts to
the transcript separated by newlines, and push every segment (with its
trimmed text) onto the segment list. -/
def assembleLoop : List EngineSegment → String × List TranscriptSegment →
    String × List TranscriptSegment
  | [], acc => acc
  | seg :: rest, (transcript, segs) =>
    let text_value := strTrim seg.text
    let transcript' :=
      if strIsEmpty text_value then transcript
      else if strIsEmpty transcript then text_value
      else transcript ++ "\n" ++ text_value
    assembleLoop rest
      (transcript',
       segs ++ [{ start := (seg.start_ts : Rat) / 100, stop := (seg.end_ts : Rat) / 100,
                  text := text_value }])

def assembleResult (segs : List EngineSegment) : TranscriptionResult :=
  let acc := assembleLoop segs ("", [])
  { transcript := acc.1, segments := acc.2 }

/-- Embedding of transcribe_blocking.  The WAV container parse and the
inference engine are external collaborators, so their outcomes are
explicit arguments; cancelAtCheck is the value of the shared cancellation
flag at the moment the engine failure handler loads it. -/
def transcribe_blocking (wav : Except String WavData) (engine : EngineOutcome)
    (cancelAtCheck : Bool) : Except SpeechError TranscriptionResult :=
  match decode_wav_to_mono_f32 wav with
  | .error e => .error e
  | .ok (samples, sample_rate) =>
    let _audio := if sample_rate ≠ 16000 then resample_audio samples sample_rate 16000
                  else samples
    match engine with
    | .ctxError msg => .error (.Whisper msg)
    | .failure msg =>
      if cancelAtCheck then .error .TranscriptionCancelled
      else .error (.Whisper msg)
    | .success segs => .ok (assembleResult segs)

/-! ### Helper functions of the module -/

/-- Embedding of decode_audio_base64: strip an optional data-URL prefix at
the first comma, then base64-decode. -/
def decode_audio_base64 (data : String) : Except SpeechError (List Byte) :=
  let trimmed := match splitOnceComma data.data with
    | some p => p.2
    | none => data.data
  match b64decode trimmed with
  | some bytes => .ok bytes
  | none => .error (.Audio "Base64 decode failed")

/-- Model of Rust Path::file_name on the relative paths used by the
module: the last non-empty, non-dot component, none for a parent-dir
component. -/
def file_name_of (p : String) : Option String :=
  let comps := (p.data.splitOn '/').filter (fun c => decide (c ≠ [] ∧ c ≠ ['.']))
  match comps.getLast? with
  | some c => if c = ['.', '.'] then none else some ⟨c⟩
  | none => none

/-- Embedding of sanitize_audio_filename. -/
def sanitize_audio_filename (input : String) : String :=
  let fallback := "recording.wav"
  let trimmed := strTrim input
  if strIsEmpty trimmed then fallback
  else if trimmed.data.contains '/' ∨ trimmed.data.contains '\\' then fallback
  else
    match file_name_of trimmed with
    | some candidate => if strIsEmpty candidate then fallback else candidate
    | none => fallback

/-! ### SpeechManager operations -/

/-- Embedding of SpeechManager::persist_sessions: rewrite the whole
durable index from the given list. -/
def persist_sessions (fs : Fs) (sessions : List SpeechSession) : Fs :=
  { fs with sessionsFile := sessions }

/-- Embedding of SpeechManager::cancel_transcription. -/
def cancel_transcription (st : SpeechState) : Bool × SpeechState :=
  match st.active_transcription with
  | some active =>
    (true, { st with active_transcription := some { active with cancel_flag := true } })
  | none => (false, st)

/-- Embedding of SpeechManager::delete_session. -/
def delete_session (session_id : String) (st : SpeechState) (fs : Fs) :
    Except SpeechError Unit × SpeechState × Fs :=
  match st.sessions.find? (fun s => s.id == session_id) with
  | none => (.ok (), st, fs)
  | some s =>
    let sessions' := st.sessions.eraseP (fun t => t.id == session_id)
    let fs₁ := persist_sessions fs sessions'
    let sdir := "sessions/" ++ s.id
    let fs₂ := if fs₁.dirExists sdir then fs₁.removeDirAll sdir else fs₁
    (.ok (), { st with sessions := sessions' }, fs₂)

/-- Replace the first session with the given id (models mutating the
session found by iter_mut().find in place). -/
def replaceFirst : List SpeechSession → String → SpeechSession → List SpeechSession
  | [], _, _ => []
  | s :: rest, sid, s' =>
    if s.id == sid then s' :: rest else s :: replaceFirst rest sid s'

/-- The title step of update_session: apply a provided title only when
it is non-empty after trimming. -/
def apply_title (title : Option String) (s : SpeechSession) : SpeechSession :=
  match title with
  | some t =>
    let trimmed := strTrim t
    if strIsEmpty trimmed then s else { s with title := trimmed }
  | none => s

/-- The transcript step of update_session: apply a provided transcript
unconditionally. -/
def apply_transcript (transcript : Option String) (s : SpeechSession) : SpeechSession :=
  match transcript with
  | some tr => { s with transcript := tr }
  | none => s

/-- Embedding of SpeechManager::update_session. -/
def update_session (payload : UpdateSpeechSessionPayload) (st : SpeechState) (fs : Fs) :
    Except SpeechError SpeechSession × SpeechState × Fs :=
  match st.sessions.find? (fun s => s.id == payload.session_id) with
  | none => (.error (.SessionNotFound payload.session_id), st, fs)
  | some s =>
    let s₂ := apply_transcript payload.transcript (apply_title payload.title s)
    let fs₁ := match payload.transcript with
      | some tr => fs.writeFile ("sessions/" ++ s.id ++ "/transcript.txt") (.text tr)
      | none => fs
    let sessions' := replaceFirst st.sessions payload.session_id s₂
    (.ok s₂, { st with sessions := sessions' }, persist_sessions fs₁ sessions')

/-- External inputs of one transcribe_audio call: the generated session
id, the two renderings of the wall-clock timestamp, the hound parse of
the decoded audio bytes, the engine outcome, and the value the shared
cancellation flag has when the engine failure handler reads it. -/
structure TranscribeEnv where
  session_id : String
  created_at : String
  time_hms : String
  wav : Except String WavData
  engine : EngineOutcome
  cancelAtCheck : Bool
deriving Repr

/-- Embedding of SpeechManager::transcribe_audio.  Returns the call
result, the final shared state, the final filesystem, and the trace of
admission and filesystem events in program order. -/
def transcribe_audio (env : TranscribeEnv) (payload : TranscribeAudioPayload)
    (st : SpeechState) (fs : Fs) :
    Except SpeechError SpeechSession × SpeechState × Fs × List FsEvent :=
  match SpeechLanguage.tryFrom payload.language with
  | .error e => (.error e, st, fs, [])
  | .ok language =>
    match decode_audio_base64 payload.audio_base64 with
    | .error e => (.error e, st, fs, [])
    | .ok audio_bytes =>
      match st.active_transcription with
      | some _ => (.error .TranscriptionInProgress, st, fs, [])
      | none =>
        let st₁ : SpeechState := { st with active_transcription := some { cancel_flag := false } }
        let session_dir := "sessions/" ++ env.session_id
        let fs₁ := fs.createDir session_dir
        let audio_relative_path := "sessions/" ++ env.session_id ++ "/recording.wav"
        let fs₂ := fs₁.createDir session_dir
        let fs₃ := fs₂.writeFile audio_relative_path (.bytes audio_bytes)
        let ev₀ : List FsEvent :=
          [.acquireSlot, .createDirEv session_dir, .createDirEv session_dir,
           .writeFileEv audio_relative_path]
        match transcribe_blocking env.wav env.engine env.cancelAtCheck with
        | .error e =>
          let st₂ := { st₁ with active_transcription := none }
          let fs₄ := fs₃.removeDirAll session_dir
          (.error e, st₂, fs₄, ev₀ ++ [.releaseSlot, .removeDirEv session_dir])
        | .ok transcription =>
          let st₂ := { st₁ with active_transcription := none }
          let default_title := language.display_name ++ "转写 " ++ env.time_hms
          let title := match payload.session_title with
            | some t => if strIsEmpty (strTrim t) then default_title else t
            | none => default_title
          let fs₄ := fs₃.writeFile (session_dir ++ "/transcript.txt")
            (.text transcription.transcript)
          let fs₅ := fs₄.writeFile (session_dir ++ "/segments.json")
            (.segs transcription.segments)
          let session : SpeechSession := {
            id := env.session_id, title := title, language := language,
            transcript := transcription.transcript, segments := transcription.segments,
            audio_path := audio_relative_path, created_at := env.created_at }
          let sessions' := session :: st₂.sessions
          let st₃ := { st₂ with sessions := sessions' }
          let fs₆ := persist_sessions fs₅ sessions'
          (.ok session, st₃, fs₆,
           ev₀ ++ [.releaseSlot, .writeFileEv (session_dir ++ "/transcript.txt"),
                   .writeFileEv (session_dir ++ "/segments.json"),
                   .writeFileEv "sessions.json"])

/-! ### Backup codec -/

/-- Lexicographic order on character lists, matching byte-wise comparison
of Rust strings on the RFC 3339 timestamps stored in created_at. -/
def charListLe : List Char → List Char → Bool
  | [], _ => true
  | _ :: _, [] => false
  | a :: as, b :: bs => if a = b then charListLe as bs else decide (a < b)

/-- Comparator of the re-sort after import: descending by created_at. -/
def created_desc (a b : SpeechSession) : Bool :=
  charListLe b.created_at.data a.created_at.data

/-- The backup record export builds for one session once its audio bytes
have been read. -/
def backupOfBytes (s : SpeechSession) (b : List Byte) : SpeechSessionBackup :=
  let filename := (file_name_of s.audio_path).getD "recording.wav"
  let mime := if strEndsWith (strToLower filename) ".wav" then "audio/wav"
              else "application/octet-stream"
  { id := s.id, title := s.title, language := s.language, transcript := s.transcript,
    segments := s.segments, created_at := s.created_at, audio_filename := filename,
    audio_base64 := "data:" ++ mime ++ ";base64," ++ String.mk (b64encodeList b) }

def exportLoop (fs : Fs) : List SpeechSession → Except SpeechError (List SpeechSessionBackup)
  | [] => .ok []
  | s :: rest =>
    match fs.readFile s.audio_path with
    | some (.bytes b) =>
      match exportLoop fs rest with
      | .ok l => .ok (backupOfBytes s b :: l)
      | .error e => .error e
    | _ => .error (.Io "无法读取音频文件")

/-- Embedding of SpeechManager::export_sessions_data. -/
def export_sessions_data (st : SpeechState) (fs : Fs) :
    Except SpeechError (List SpeechSessionBackup) :=
  exportLoop fs st.sessions

/-- The per-record loop of import_sessions_data.  A decode failure stops
the loop, leaving the records upserted so far in memory and the index
file unwritten, exactly as the early return in the source does. -/
def importLoop : List SpeechSessionBackup → SpeechState → Fs → Nat →
    Except SpeechError Nat × SpeechState × Fs
  | [], st, fs, imported => (.ok imported, st, fs)
  | backup :: rest, st, fs, imported =>
    match decode_audio_base64 backup.audio_base64 with
    | .error e => (.error e, st, fs)
    | .ok audio_bytes =>
      let sanitized_filename := sanitize_audio_filename backup.audio_filename
      let session_dir := "sessions/" ++ backup.id
      let fs₁ := if fs.dirExists session_dir then fs.removeDirAll session_dir else fs
      let fs₂ := fs₁.createDir session_dir
      let fs₃ := fs₂.writeFile (session_dir ++ "/" ++ sanitized_filename) (.bytes audio_bytes)
      let fs₄ := fs₃.writeFile (session_dir ++ "/transcript.txt") (.text backup.transcript)
      let fs₅ := fs₄.writeFile (session_dir ++ "/segments.json") (.segs backup.segments)
      let audio_rel_path := "sessions/" ++ backup.id ++ "/" ++ sanitized_filename
      let session : SpeechSession := {
        id := backup.id, title := backup.title, language := backup.language,
        transcript := backup.transcript, segments := backup.segments,
        audio_path := audio_rel_path, created_at := backup.created_at }
      let sessions₁ := st.sessions.eraseP (fun s => s.id == session.id)
      let sessions₂ := sessions₁ ++ [session]
      importLoop rest { st with sessions := sessions₂ } fs₅ (imported + 1)

/-- Embedding of SpeechManager::import_sessions_data: an empty input
returns zero without touching the store; otherwise run the loop, then
re-sort by creation time descending (Rust sort_by is a stable sort) and
persist the index. -/
def import_sessions_data (backups : List SpeechSessionBackup) (st : SpeechState) (fs : Fs) :
    Except SpeechError Nat × SpeechState × Fs :=
  if backups.isEmpty then (.ok 0, st, fs)
  else
    match importLoop backups st fs 0 with
    | (.error e, st', fs') => (.error e, st', fs')
    | (.ok n, st', fs') =>
      let sorted := st'.sessions.mergeSort created_desc
      (.ok n, { st' with sessions := sorted }, persist_sessions fs' sorted)

/-! ### Spec-side definitions used by the claim statements -/

/-- The durable-index invariant of the spec: the content of sessions.json
equals the in-memory session list. -/
def synced (st : SpeechState) (fs : Fs) : Prop := fs.sessionsFile = st.sessions

/-- Arithmetic mean of one frame, as the spec describes downmixing. -/
def frameMean (chunk : List Rat) : Rat := chunk.sum / (chunk.length : Rat)

/-- Joining a list of texts with newlines, as the spec describes the
transcript assembly. -/
def newlineJoin : List String → String
  | [] => ""
  | [t] => t
  | t :: rest => t ++ "\n" ++ newlineJoin rest

/-- The session fields the round-trip claim compares: id, title,
transcript and segment sequence. -/
def sessionKey (s : SpeechSession) : String × String × String × List TranscriptSegment :=
  (s.id, s.title, s.transcript, s.segments)

/-- Every session's audio artifact is present on the modelled filesystem. -/
def allReadable (st : SpeechState) (fs : Fs) : Bool :=
  st.sessions.all (fun s => match fs.readFile s.audio_path with
    | some (.bytes _) => true
    | _ => false)

/-- The byte content of an audio artifact (empty when absent). -/
def bytesAt (fs : Fs) (p : String) : List Byte :=
  match fs.readFile p with
  | some (.bytes b) => b
  | _ => []

/-! ### C5 -/

/-- C5: cancellation request semantics.  For every store state, cancel
returns true exactly when a job is active; when one is active its
cancellation flag is set, and when none is active the state is unchanged
(the returned state is the old state with the flag of the active job, if
any, set). -/
theorem C5_cancel_semantics (st : SpeechState) :
    (cancel_transcription st).1 = st.active_transcription.isSome ∧
    (cancel_transcription st).2 =
      { st with active_transcription :=
          st.active_transcription.map (fun a => { a with cancel_flag := true }) } := by
  obtain ⟨sessions, active⟩ := st
  cases active <;> simp [cancel_transcription]

/-! ### C7 -/

/-- C7: decoder format handling.  A zero channel count is rejected as a
format error; 8- and 16-bit integer samples are normalized by the signed
maximum (127 and 32767) and 24-bit samples by two to the power 23, as
the claim states; every other integer bit depth is rejected with the
unsupported-bit-depth error.  For 32 bits, however, the source computes
the normalizer as 2_i32.pow(31), which overflows i32: in release builds
it wraps to the negative value -2^31 (flipping the sign of every
normalized sample) instead of the 2^(bits-1) the claim states, and in
debug builds the call panics. -/
theorem C7_decoder_formats (w : WavData) :
    (w.channels = 0 →
      decode_wav_to_mono_f32 (.ok w) = .error (.Audio "音频通道数无效")) ∧
    (w.channels ≠ 0 → w.format = .Int →
      ((w.bitsPerSample = 8 →
          decode_wav_to_mono_f32 (.ok w) =
            .ok (reduce_channels (w.intSamples.map (fun v => (v : Rat) / 127)) w.channels,
                 w.sampleRate)) ∧
       (w.bitsPerSample = 16 →
          decode_wav_to_mono_f32 (.ok w) =
            .ok (reduce_channels (w.intSamples.map (fun v => (v : Rat) / 32767)) w.channels,
                 w.sampleRate)) ∧
       (w.bitsPerSample = 24 →
          decode_wav_to_mono_f32 (.ok w) =
            .ok (reduce_channels
                   (w.intSamples.map (fun v => (v : Rat) / ((2 : Rat) ^ 23)))
                   w.channels,
                 w.sampleRate)) ∧
       (w.bitsPerSample = 32 →
          decode_wav_to_mono_f32 (.ok w) =
            .ok (reduce_channels
                   (w.intSamples.map (fun v => (v : Rat) / (-((2 : Rat) ^ 31))))
                   w.channels,
                 w.sampleRate)) ∧
       (w.bitsPerSample ≠ 8 → w.bitsPerSample ≠ 16 → w.bitsPerSample ≠ 24 →
        w.bitsPerSample ≠ 32 →
          decode_wav_to_mono_f32 (.ok w) = .error (.UnsupportedBitDepth w.bitsPerSample)))) ∧
    (-((2 : Rat) ^ 31) ≠ (2 : Rat) ^ (32 - 1)) := by
  have hw24 : ((i32_wrap 8388608 : Int) : Rat) = 8388608 := by norm_num [i32_wrap]
  have hw32 : ((i32_wrap 2147483648 : Int) : Rat) = -2 ^ 31 := by norm_num [i32_wrap]
  refine ⟨fun h0 => ?_, fun h0 hint => ⟨fun h8 => ?_, fun h16 => ?_, fun h24 => ?_,
    fun h32 => ?_, fun n8 n16 n24 n32 => ?_⟩, by norm_num⟩
  · simp [decode_wav_to_mono_f32, h0]
  · simp [decode_wav_to_mono_f32, h0, hint, h8]
  · simp [decode_wav_to_mono_f32, h0, hint, h16]
  · simp [decode_wav_to_mono_f32, h0, hint, h24, hw24]
    norm_num
  · simp [decode_wav_to_mono_f32, h0, hint, h32, hw32]
  · simp [decode_wav_to_mono_f32, h0, hint, n8, n16, n24, n32]

/-- Witness for C7 at concrete inputs: a zero-channel file, an 8-bit
mono file, a 32-bit mono file (overflowed normalizer), and a 20-bit
file. -/
theorem C7_decoder_formats_witness :
    decode_wav_to_mono_f32 (.ok {
      channels := 0, sampleRate := 44100, bitsPerSample := 16,
      format := .Int, floatSamples := [], intSamples := [] })
      = .error (.Audio "音频通道数无效") ∧
    decode_wav_to_mono_f32 (.ok {
      channels := 1, sampleRate := 16000, bitsPerSample := 8,
      format := .Int, floatSamples := [], intSamples := [] })
      = .ok (reduce_channels (List.map (fun v => (v : Rat) / 127) []) 1, 16000) ∧
    decode_wav_to_mono_f32 (.ok {
      channels := 1, sampleRate := 16000, bitsPerSample := 32,
      format := .Int, floatSamples := [], intSamples := [] })
      = .ok (reduce_channels (List.map (fun v => (v : Rat) / (-((2 : Rat) ^ 31))) []) 1,
             16000) ∧
    decode_wav_to_mono_f32 (.ok {
      channels := 1, sampleRate := 16000, bitsPerSample := 20,
      format := .Int, floatSamples := [], intSamples := [] })
      = .error (.UnsupportedBitDepth 20) :=
  ⟨(C7_decoder_formats _).1 rfl,
   ((C7_decoder_formats _).2.1 (by decide) rfl).1 rfl,
   ((C7_decoder_formats _).2.1 (by decide) rfl).2.2.2.1 rfl,
   ((C7_decoder_formats _).2.1 (by decide) rfl).2.2.2.2 (by decide) (by decide) (by decide)
     (by decide)⟩

/-! ### C8 -/

theorem chunksOf_length_eq (n : Nat) (hn : 0 < n) :
    ∀ (k : Nat) (l : List α), l.length = n * k → ∀ c ∈ chunksOf n l, c.length = n := by
  intro k
  induction k with
  | zero =>
    intro l hl c hc
    have : l = [] := List.eq_nil_of_length_eq_zero (by omega)
    subst this
    simp [chunksOf_nil] at hc
  | succ k ih =>
    intro l hl c hc
    rw [Nat.mul_succ] at hl
    have hne : l ≠ [] := by
      intro h
      subst h
      simp at hl
      omega
    rw [chunksOf_cons n hn l hne] at hc
    rcases List.mem_cons.mp hc with rfl | hc
    · simp only [List.length_take]
      omega
    · exact ih (l.drop n) (by simp only [List.length_drop]; omega) c hc

/-- C8 counterexample: with two channels and the one-sample buffer
containing the single value one there is a mono output sample, and it is
one half (the sum divided by the full channel count), not the arithmetic
mean one of that partial frame.  This refutes the claim as stated for
every sample buffer. -/
theorem C8_counterexample :
    reduce_channels [(1 : Rat)] 2 = [1 / 2] ∧ frameMean [(1 : Rat)] = 1 ∧
      ¬ ((1 : Rat) / 2 = 1) := by
  refine ⟨?_, ?_, by norm_num⟩
  · norm_num [reduce_channels, chunksOf, chunksOfAux]
  · norm_num [frameMean]

/-- C8 (amended): downmix is the per-frame arithmetic mean for every
buffer whose length is a multiple of the channel count; a trailing
partial frame is instead divided by the full channel count. -/
theorem C8_amended_downmix_mean (samples : List Rat) (channels : Nat)
    (h1 : 1 < channels) (h2 : channels ∣ samples.length) :
    reduce_channels samples channels = (chunksOf channels samples).map frameMean := by
  obtain ⟨k, hk⟩ := h2
  unfold reduce_channels
  rw [if_neg (by omega)]
  apply List.map_congr_left
  intro c hc
  have hlen : c.length = channels := chunksOf_length_eq channels (by omega) k samples hk c hc
  rw [frameMean, hlen]

/-- Witness for the amended C8 on a concrete two-channel buffer. -/
theorem C8_amended_downmix_mean_witness :
    reduce_channels [(1 : Rat), 2, 3, 4] 2 = (chunksOf 2 [(1 : Rat), 2, 3, 4]).map frameMean :=
  C8_amended_downmix_mean _ 2 (by decide) (by decide)

/-! ### C9 -/

theorem assembleLoop_snd : ∀ (segs : List EngineSegment) (tr : String)
    (acc : List TranscriptSegment),
    (assembleLoop segs (tr, acc)).2 = acc ++ segs.map (fun g =>
      { start := (g.start_ts : Rat) / 100, stop := (g.end_ts : Rat) / 100,
        text := strTrim g.text }) := by
  intro segs
  induction segs with
  | nil => intro tr acc; simp [assembleLoop]
  | cons g rest ih =>
    intro tr acc
    simp only [assembleLoop, ih, List.map_cons]
    simp

/-- One joining step of the transcript fold, for a non-empty new text. -/
def joinStep (a t : String) : String := if strIsEmpty a then t else a ++ "\n" ++ t

theorem assembleLoop_fst : ∀ (segs : List EngineSegment) (tr : String)
    (acc : List TranscriptSegment),
    (assembleLoop segs (tr, acc)).1 =
      List.foldl joinStep tr
        ((segs.map (fun g => strTrim g.text)).filter (fun t => !(strIsEmpty t))) := by
  intro segs
  induction segs with
  | nil => intro tr acc; simp [assembleLoop]
  | cons g rest ih =>
    intro tr acc
    cases h : strIsEmpty (strTrim g.text) with
    | true =>
      simp only [assembleLoop, h, if_true, List.map_cons, List.filter_cons, Bool.not_true, ih]
      simp
    | false =>
      simp only [assembleLoop, h, List.map_cons, List.filter_cons, Bool.not_false, ih,
        List.foldl_cons]
      simp [joinStep]

theorem strIsEmpty_append (a b : String) :
    strIsEmpty (a ++ b) = (strIsEmpty a && strIsEmpty b) := by
  simp only [strIsEmpty, String.data_append]
  rcases a.data with _ | ⟨x, xs⟩ <;> rcases b.data with _ | ⟨y, ys⟩ <;> simp [List.isEmpty]

theorem strAppend_assoc (a b c : String) : a ++ b ++ c = a ++ (b ++ c) := by
  apply String.ext
  simp [String.data_append]

theorem newlineJoin_cons (t : String) (l : List String) (h : l ≠ []) :
    newlineJoin (t :: l) = t ++ "\n" ++ newlineJoin l := by
  cases l with
  | nil => exact absurd rfl h
  | cons a as => rfl

theorem foldl_joinStep_ne : ∀ (l : List String) (a : String), strIsEmpty a = false →
    (∀ t ∈ l, strIsEmpty t = false) →
    List.foldl joinStep a l = (if l.isEmpty then a else a ++ "\n" ++ newlineJoin l) := by
  intro l
  induction l with
  | nil => intro a ha hl; simp
  | cons t ts ih =>
    intro a ha hl
    have ht : strIsEmpty t = false := hl t (by simp)
    have hstep : joinStep a t = a ++ "\n" ++ t := by simp [joinStep, ha]
    have hne : strIsEmpty (a ++ "\n" ++ t) = false := by
      rw [strIsEmpty_append, strIsEmpty_append, ha]
      rfl
    simp only [List.foldl_cons, hstep]
    rw [ih (a ++ "\n" ++ t) hne (fun x hx => hl x (List.mem_cons_of_mem _ hx))]
    cases ts with
    | nil => simp [newlineJoin]
    | cons u us =>
      simp only [List.isEmpty_cons, if_neg Bool.false_ne_true]
      rw [newlineJoin_cons t (u :: us) (by simp), ← strAppend_assoc, ← strAppend_assoc]

theorem foldl_joinStep_eq (l : List String) (hl : ∀ t ∈ l, strIsEmpty t = false) :
    List.foldl joinStep "" l = newlineJoin l := by
  cases l with
  | nil => rfl
  | cons t ts =>
    have ht := hl t (by simp)
    have hstep : joinStep "" t = t := by simp [joinStep, strIsEmpty]
    simp only [List.foldl_cons, hstep]
    rw [foldl_joinStep_ne ts t ht (fun x hx => hl x (List.mem_cons_of_mem _ hx))]
    cases ts with
    | nil => rfl
    | cons u us =>
      simp only [List.isEmpty_cons, if_neg Bool.false_ne_true]
      rw [newlineJoin_cons t (u :: us) (by simp)]

/-- C9 counterexample: an engine run with a single whitespace-only
segment.  The transcript is empty, but the session segment list retains
the segment with empty text, refuting that every retained
TranscriptSegment has non-empty text. -/
theorem C9_counterexample :
    ((assembleResult [{ start_ts := 0, end_ts := 100, text := "   " }]).segments.map
      (fun s => s.text)) = [""] ∧
    (assembleResult [{ start_ts := 0, end_ts := 100, text := "   " }]).transcript = "" := by
  constructor <;> rfl

/-- C9 (amended): the assembled transcript equals the trimmed segment
texts that are non-empty, joined by newlines with empty texts dropped;
the retained segment list keeps every engine segment with its trimmed
text, including segments whose trimmed text is empty. -/
theorem C9_amended_transcript_assembly (segs : List EngineSegment) :
    (assembleResult segs).transcript =
      newlineJoin ((segs.map (fun g => strTrim g.text)).filter (fun t => !(strIsEmpty t))) ∧
    (assembleResult segs).segments = segs.map (fun g =>
      { start := (g.start_ts : Rat) / 100, stop := (g.end_ts : Rat) / 100,
        text := strTrim g.text }) := by
  constructor
  · rw [show (assembleResult segs).transcript = (assembleLoop segs ("", [])).1 from rfl,
      assembleLoop_fst]
    apply foldl_joinStep_eq
    intro t ht
    have := List.of_mem_filter ht
    simpa using this
  · rw [show (assembleResult segs).segments = (assembleLoop segs ("", [])).2 from rfl,
      assembleLoop_snd]
    rfl

/-! ### Concrete fixtures used by witnesses and counterexamples -/

def fsEmpty : Fs := { sessionsFile := [], files := [], dirs := [] }

def stIdle : SpeechState := { sessions := [], active_transcription := none }

def stBusy : SpeechState := { sessions := [], active_transcription := some { cancel_flag := false } }

def wavEmptyFloat : WavData :=
  { channels := 1, sampleRate := 16000, bitsPerSample := 32, format := .Float,
    floatSamples := [], intSamples := [] }

def payloadEn : TranscribeAudioPayload :=
  { audio_base64 := "", language := "en", session_title := none }

def sessionA : SpeechSession :=
  { id := "s1", title := "T", language := .English, transcript := "hello", segments := [],
    audio_path := "a.wav", created_at := "2024" }

/-! ### C4 -/

theorem Fs.readFile_writeFile (fs : Fs) (path : String) (d : FileData) :
    (fs.writeFile path d).readFile path = some d := by
  simp [Fs.readFile, Fs.writeFile, List.find?_cons_of_pos]

/-- C4 counterexample: a stored session has transcript hello; an update
provides a transcript that is empty (hence empty after trimming).  The
claim says an empty-after-trim provided field leaves the stored value
unchanged, but the code stores the empty transcript. -/
theorem C4_counterexample :
    (update_session { session_id := "s1", transcript := some "", title := none }
        { sessions := [sessionA], active_transcription := none } fsEmpty).1
      = .ok { id := "s1", title := "T", language := .English, transcript := "",
              segments := [], audio_path := "a.wav", created_at := "2024" } := by
  decide

theorem apply_title_id (o : Option String) (s : SpeechSession) :
    (apply_title o s).id = s.id := by
  cases o with
  | none => rfl
  | some t => simp only [apply_title]; split <;> rfl

theorem apply_title_segments (o : Option String) (s : SpeechSession) :
    (apply_title o s).segments = s.segments := by
  cases o with
  | none => rfl
  | some t => simp only [apply_title]; split <;> rfl

theorem apply_title_language (o : Option String) (s : SpeechSession) :
    (apply_title o s).language = s.language := by
  cases o with
  | none => rfl
  | some t => simp only [apply_title]; split <;> rfl

theorem apply_title_audio_path (o : Option String) (s : SpeechSession) :
    (apply_title o s).audio_path = s.audio_path := by
  cases o with
  | none => rfl
  | some t => simp only [apply_title]; split <;> rfl

theorem apply_title_created_at (o : Option String) (s : SpeechSession) :
    (apply_title o s).created_at = s.created_at := by
  cases o with
  | none => rfl
  | some t => simp only [apply_title]; split <;> rfl

theorem apply_title_transcript (o : Option String) (s : SpeechSession) :
    (apply_title o s).transcript = s.transcript := by
  cases o with
  | none => rfl
  | some t => simp only [apply_title]; split <;> rfl

theorem apply_title_title (o : Option String) (s : SpeechSession) :
    (apply_title o s).title = (match o with
      | some t => if strIsEmpty (strTrim t) then s.title else strTrim t
      | none => s.title) := by
  cases o with
  | none => rfl
  | some t => simp only [apply_title]; split <;> rfl

theorem apply_transcript_id (o : Option String) (s : SpeechSession) :
    (apply_transcript o s).id = s.id := by
  cases o <;> rfl

theorem apply_transcript_segments (o : Option String) (s : SpeechSession) :
    (apply_transcript o s).segments = s.segments := by
  cases o <;> rfl

theorem apply_transcript_language (o : Option String) (s : SpeechSession) :
    (apply_transcript o s).language = s.language := by
  cases o <;> rfl

theorem apply_transcript_audio_path (o : Option String) (s : SpeechSession) :
    (apply_transcript o s).audio_path = s.audio_path := by
  cases o <;> rfl

theorem apply_transcript_created_at (o : Option String) (s : SpeechSession) :
    (apply_transcript o s).created_at = s.created_at := by
  cases o <;> rfl

theorem apply_transcript_title (o : Option String) (s : SpeechSession) :
    (apply_transcript o s).title = s.title := by
  cases o <;> rfl

theorem apply_transcript_transcript (o : Option String) (s : SpeechSession) :
    (apply_transcript o s).transcript = o.getD s.transcript := by
  cases o <;> rfl

/-- C4 (amended): update applies a provided title only when it is
non-empty after trimming (storing the trimmed title); a provided
transcript is always applied, even when empty after trimming, and the
sidecar transcript file is rewritten with it; an absent id fails with
the not-found error leaving store and filesystem unchanged. -/
theorem C4_amended_update (payload : UpdateSpeechSessionPayload) (st : SpeechState) (fs : Fs) :
    (st.sessions.find? (fun s => s.id == payload.session_id) = none →
      update_session payload st fs = (.error (.SessionNotFound payload.session_id), st, fs)) ∧
    (∀ s, st.sessions.find? (fun s => s.id == payload.session_id) = some s →
      ∃ s', (update_session payload st fs).1 = .ok s' ∧
        s'.id = s.id ∧ s'.segments = s.segments ∧ s'.language = s.language ∧
        s'.audio_path = s.audio_path ∧ s'.created_at = s.created_at ∧
        s'.title = (match payload.title with
          | some t => if strIsEmpty (strTrim t) then s.title else strTrim t
          | none => s.title) ∧
        s'.transcript = payload.transcript.getD s.transcript ∧
        (∀ tr, payload.transcript = some tr →
          ((update_session payload st fs).2.2).readFile
            ("sessions/" ++ s.id ++ "/transcript.txt") = some (.text tr)) ∧
        (payload.transcript = none → ((update_session payload st fs).2.2).files = fs.files)) := by
  constructor
  · intro h
    unfold update_session
    rw [h]
  · intro s h
    unfold update_session
    rw [h]
    refine ⟨_, rfl, ?_, ?_, ?_, ?_, ?_, ?_, ?_, ?_, ?_⟩
    · rw [apply_transcript_id, apply_title_id]
    · rw [apply_transcript_segments, apply_title_segments]
    · rw [apply_transcript_language, apply_title_language]
    · rw [apply_transcript_audio_path, apply_title_audio_path]
    · rw [apply_transcript_created_at, apply_title_created_at]
    · rw [apply_transcript_title, apply_title_title]
    · rw [apply_transcript_transcript, apply_title_transcript]
    · intro tr htr
      rw [htr]
      exact Fs.readFile_writeFile _ _ _
    · intro htr
      rw [htr]
      rfl

/-- Witness for the amended C4: the not-found branch on an empty store,
and a found session receiving a new transcript. -/
theorem C4_amended_update_witness :
    (update_session { session_id := "zzz", transcript := none, title := none } stIdle fsEmpty
      = (.error (.SessionNotFound "zzz"), stIdle, fsEmpty)) ∧
    (∃ s', (update_session { session_id := "s1", transcript := some "new", title := some " " }
        { sessions := [sessionA], active_transcription := none } fsEmpty).1 = .ok s' ∧
      s'.id = sessionA.id ∧ s'.segments = sessionA.segments ∧
      s'.language = sessionA.language ∧ s'.audio_path = sessionA.audio_path ∧
      s'.created_at = sessionA.created_at ∧
      s'.title = (match (some " " : Option String) with
        | some t => if strIsEmpty (strTrim t) then sessionA.title else strTrim t
        | none => sessionA.title) ∧
      s'.transcript = (some "new" : Option String).getD sessionA.transcript ∧
      (∀ tr, (some "new" : Option String) = some tr →
        ((update_session { session_id := "s1", transcript := some "new", title := some " " }
            { sessions := [sessionA], active_transcription := none } fsEmpty).2.2).readFile
          ("sessions/" ++ sessionA.id ++ "/transcript.txt") = some (.text tr)) ∧
      ((some "new" : Option String) = none →
        ((update_session { session_id := "s1", transcript := some "new", title := some " " }
            { sessions := [sessionA], active_transcription := none } fsEmpty).2.2).files
          = fsEmpty.files)) :=
  ⟨(C4_amended_update _ _ _).1 (by decide),
   (C4_amended_update _ _ _).2 sessionA (by decide)⟩

/-! ### C2 -/

/-- C2: durable-index synchronization.  Starting from a state where the
index file content equals the in-memory list, every successful mutating
operation (transcribe success, update, delete, import) leaves the index
file content equal to the in-memory list. -/
theorem C2_durable_index_sync :
    (∀ env payload st fs s, synced st fs → (transcribe_audio env payload st fs).1 = .ok s →
      synced (transcribe_audio env payload st fs).2.1 (transcribe_audio env payload st fs).2.2.1) ∧
    (∀ payload st fs s, synced st fs → (update_session payload st fs).1 = .ok s →
      synced (update_session payload st fs).2.1 (update_session payload st fs).2.2) ∧
    (∀ sid st fs, synced st fs →
      synced (delete_session sid st fs).2.1 (delete_session sid st fs).2.2) ∧
    (∀ backups st fs n, synced st fs → (import_sessions_data backups st fs).1 = .ok n →
      synced (import_sessions_data backups st fs).2.1 (import_sessions_data backups st fs).2.2) := by
  refine ⟨?_, ?_, ?_, ?_⟩
  · intro env payload st fs s hs hok
    unfold transcribe_audio at hok ⊢
    cases h1 : SpeechLanguage.tryFrom payload.language with
    | error e => rw [h1] at hok; simp at hok
    | ok lang =>
      rw [h1] at hok
      cases h2 : decode_audio_base64 payload.audio_base64 with
      | error e => rw [h2] at hok; simp at hok
      | ok bytes =>
        rw [h2] at hok
        cases h3 : st.active_transcription with
        | some a => rw [h3] at hok; simp at hok
        | none =>
          rw [h3] at hok
          cases h4 : transcribe_blocking env.wav env.engine env.cancelAtCheck with
          | error e => rw [h4] at hok; simp at hok
          | ok r => rfl
  · intro payload st fs s hs hok
    unfold update_session at hok ⊢
    cases h1 : st.sessions.find? (fun u => u.id == payload.session_id) with
    | none => rw [h1] at hok; simp at hok
    | some u => rfl
  · intro sid st fs hs
    unfold delete_session
    cases h1 : st.sessions.find? (fun u => u.id == sid) with
    | none => exact hs
    | some u =>
      dsimp only
      split
      · rfl
      · rfl
  · intro backups st fs n hs hok
    unfold import_sessions_data at hok ⊢
    cases hemp : backups.isEmpty with
    | true => exact hs
    | false =>
      have hne : backups ≠ [] := by
        cases backups
        · simp at hemp
        · simp
      set x := importLoop backups st fs 0 with hx
      obtain ⟨r, st2, fs2⟩ := x
      cases r with
      | error e => simp [hne] at hok
      | ok m => rfl

def fsA : Fs := { sessionsFile := [sessionA], files := [], dirs := [] }

def envOkEmpty : TranscribeEnv :=
  { session_id := "sid", created_at := "t", time_hms := "h", wav := .ok wavEmptyFloat,
    engine := .success [], cancelAtCheck := false }

/-- Witness for C2: each mutating operation run at a concrete input. -/
theorem C2_durable_index_sync_witness :
    synced (transcribe_audio envOkEmpty payloadEn stIdle fsEmpty).2.1
      (transcribe_audio envOkEmpty payloadEn stIdle fsEmpty).2.2.1 ∧
    synced (update_session { session_id := "s1", transcript := some "x", title := none }
        { sessions := [sessionA], active_transcription := none } fsA).2.1
      (update_session { session_id := "s1", transcript := some "x", title := none }
        { sessions := [sessionA], active_transcription := none } fsA).2.2 ∧
    synced (delete_session "x" stIdle fsEmpty).2.1 (delete_session "x" stIdle fsEmpty).2.2 ∧
    synced (import_sessions_data [] stIdle fsEmpty).2.1
      (import_sessions_data [] stIdle fsEmpty).2.2 :=
  ⟨C2_durable_index_sync.1 envOkEmpty payloadEn stIdle fsEmpty
      { id := "sid", title := "英语转写 h", language := .English, transcript := "",
        segments := [], audio_path := "sessions/sid/recording.wav", created_at := "t" }
      rfl (by decide),
   C2_durable_index_sync.2.1 { session_id := "s1", transcript := some "x", title := none }
      { sessions := [sessionA], active_transcription := none } fsA
      { id := "s1", title := "T", language := .English, transcript := "x", segments := [],
        audio_path := "a.wav", created_at := "2024" }
      rfl (by decide),
   C2_durable_index_sync.2.2.1 "x" stIdle fsEmpty rfl,
   C2_durable_index_sync.2.2.2 [] stIdle fsEmpty 0 rfl (by decide)⟩

/-! ### C1 -/

theorem decode_wav_error_shape (p : Except String WavData) (e : SpeechError)
    (h : decode_wav_to_mono_f32 p = .error e) :
    (∃ m, e = .Audio m) ∨ (∃ b, e = .UnsupportedBitDepth b) := by
  rcases p with msg | w
  · simp [decode_wav_to_mono_f32] at h
    exact Or.inl ⟨msg, h.symm⟩
  · unfold decode_wav_to_mono_f32 at h
    dsimp only at h
    by_cases h0 : w.channels = 0
    · rw [if_pos h0] at h
      simp at h
      exact Or.inl ⟨_, h.symm⟩
    · rw [if_neg h0] at h
      cases hf : w.format
      · rw [hf] at h
        dsimp only at h
        split_ifs at h
      · rw [hf] at h
        dsimp only at h
        split_ifs at h with h8 h16 h24
        simp at h
        exact Or.inr ⟨_, h.symm⟩

theorem transcribe_blocking_ne_in_progress (wav : Except String WavData)
    (engine : EngineOutcome) (c : Bool) :
    transcribe_blocking wav engine c ≠ .error .TranscriptionInProgress := by
  intro h
  unfold transcribe_blocking at h
  cases hd : decode_wav_to_mono_f32 wav with
  | error e =>
    rw [hd] at h
    simp at h
    rcases decode_wav_error_shape wav e hd with ⟨m, hm⟩ | ⟨b, hb⟩
    · simp [hm] at h
    · simp [hb] at h
  | ok sr =>
    obtain ⟨samples, rate⟩ := sr
    rw [hd] at h
    cases engine with
    | ctxError m => simp at h
    | failure m => split_ifs at h <;> simp at h
    | success segs => simp at h

/-- C1: single-flight admission.  For a payload that passes language and
audio validation, a transcribe call made while a job is active fails
with the distinct in-progress error and changes neither the state nor
the filesystem; a call admitted from an idle state releases the slot on
every exit path, and an admitted call is never rejected with the
in-progress error. -/
theorem C1_single_flight (env : TranscribeEnv) (payload : TranscribeAudioPayload)
    (st : SpeechState) (fs : Fs) (lang : SpeechLanguage) (audio_bytes : List Byte)
    (hlang : SpeechLanguage.tryFrom payload.language = .ok lang)
    (hb64 : decode_audio_base64 payload.audio_base64 = .ok audio_bytes) :
    (st.active_transcription.isSome →
      transcribe_audio env payload st fs = (.error .TranscriptionInProgress, st, fs, [])) ∧
    (st.active_transcription = none →
      (transcribe_audio env payload st fs).2.1.active_transcription = none ∧
      (transcribe_audio env payload st fs).1 ≠ .error .TranscriptionInProgress) := by
  constructor
  · intro hsome
    obtain ⟨a, ha⟩ := Option.isSome_iff_exists.mp hsome
    unfold transcribe_audio
    rw [hlang, hb64, ha]
  · intro hnone
    unfold transcribe_audio
    rw [hlang, hb64, hnone]
    constructor
    · cases hb : transcribe_blocking env.wav env.engine env.cancelAtCheck with
      | error e => rfl
      | ok r => rfl
    · cases hb : transcribe_blocking env.wav env.engine env.cancelAtCheck with
      | error e =>
        intro hcontra
        simp at hcontra
        exact transcribe_blocking_ne_in_progress _ _ _ (hcontra ▸ hb)
      | ok r =>
        intro hcontra
        simp at hcontra

/-- Witness for C1: a busy store rejects, an idle store admits and the
slot is free again after the call returns. -/
theorem C1_single_flight_witness :
    (transcribe_audio envOkEmpty payloadEn stBusy fsEmpty
      = (.error .TranscriptionInProgress, stBusy, fsEmpty, [])) ∧
    ((transcribe_audio envOkEmpty payloadEn stIdle fsEmpty).2.1.active_transcription = none ∧
     (transcribe_audio envOkEmpty payloadEn stIdle fsEmpty).1 ≠ .error .TranscriptionInProgress) :=
  ⟨(C1_single_flight envOkEmpty payloadEn stBusy fsEmpty .English [] (by decide) (by decide)).1
      rfl,
   (C1_single_flight envOkEmpty payloadEn stIdle fsEmpty .English [] (by decide) (by decide)).2
      rfl⟩

/-! ### C3 -/

def envBadWav : TranscribeEnv :=
  { session_id := "sid", created_at := "t", time_hms := "h", wav := .error "bad wav",
    engine := .success [], cancelAtCheck := false }

/-- C3 counterexample: a payload whose WAV container fails to decode.
The call does abort with a format error, but only after the active-job
slot was acquired and the audio file written, refuting that a failing
audio decode aborts before admission and before any filesystem write. -/
theorem C3_counterexample :
    (transcribe_audio envBadWav payloadEn stIdle fsEmpty).1 = .error (.Audio "bad wav") ∧
    (transcribe_audio envBadWav payloadEn stIdle fsEmpty).2.2.2 =
      [.acquireSlot, .createDirEv "sessions/sid", .createDirEv "sessions/sid",
       .writeFileEv "sessions/sid/recording.wav", .releaseSlot,
       .removeDirEv "sessions/sid"] := by
  constructor
  · rfl
  · rfl

/-- C3 (amended): an unsupported language tag fails before the slot is
acquired and before any filesystem effect, as does a payload whose
base64 decoding fails; a WAV container or format decoding failure
instead aborts the call with the decoder's error after the slot was
acquired and the audio artifact written, with the slot released, the
index file untouched, and the session directory removed again before
returning. -/
theorem C3_amended_validation_order (env : TranscribeEnv) (payload : TranscribeAudioPayload)
    (st : SpeechState) (fs : Fs) :
    (∀ e, SpeechLanguage.tryFrom payload.language = .error e →
      transcribe_audio env payload st fs = (.error e, st, fs, [])) ∧
    (∀ lang e, SpeechLanguage.tryFrom payload.language = .ok lang →
      decode_audio_base64 payload.audio_base64 = .error e →
      transcribe_audio env payload st fs = (.error e, st, fs, [])) ∧
    (∀ lang bytes e, SpeechLanguage.tryFrom payload.language = .ok lang →
      decode_audio_base64 payload.audio_base64 = .ok bytes →
      st.active_transcription = none →
      decode_wav_to_mono_f32 env.wav = .error e →
      (transcribe_audio env payload st fs).1 = .error e ∧
      (transcribe_audio env payload st fs).2.1.active_transcription = none ∧
      (transcribe_audio env payload st fs).2.2.1.sessionsFile = fs.sessionsFile ∧
      (transcribe_audio env payload st fs).2.2.2 =
        [.acquireSlot, .createDirEv ("sessions/" ++ env.session_id),
         .createDirEv ("sessions/" ++ env.session_id),
         .writeFileEv ("sessions/" ++ env.session_id ++ "/recording.wav"),
         .releaseSlot, .removeDirEv ("sessions/" ++ env.session_id)]) := by
  refine ⟨?_, ?_, ?_⟩
  · intro e he
    unfold transcribe_audio
    rw [he]
  · intro lang e hl he
    unfold transcribe_audio
    rw [hl, he]
  · intro lang bytes e hl hb hnone hwav
    have hblk : transcribe_blocking env.wav env.engine env.cancelAtCheck = .error e := by
      unfold transcribe_blocking
      rw [hwav]
    unfold transcribe_audio
    rw [hl, hb, hnone, hblk]
    exact ⟨rfl, rfl, rfl, rfl⟩

/-- Witness for the amended C3: a bad language tag, a bad base64
payload, and a payload whose WAV container decode fails. -/
theorem C3_amended_validation_order_witness :
    (transcribe_audio envOkEmpty { audio_base64 := "", language := "xx", session_title := none }
        stIdle fsEmpty
      = (.error (.UnsupportedLanguage "xx"), stIdle, fsEmpty, [])) ∧
    (transcribe_audio envOkEmpty {
        audio_base64 := "!!!!", language := "en", session_title := none } stIdle fsEmpty
      = (.error (.Audio "Base64 decode failed"), stIdle, fsEmpty, [])) ∧
    ((transcribe_audio envBadWav payloadEn stIdle fsEmpty).1 = .error (.Audio "bad wav") ∧
     (transcribe_audio envBadWav payloadEn stIdle fsEmpty).2.1.active_transcription = none ∧
     (transcribe_audio envBadWav payloadEn stIdle fsEmpty).2.2.1.sessionsFile
       = fsEmpty.sessionsFile ∧
     (transcribe_audio envBadWav payloadEn stIdle fsEmpty).2.2.2 =
       [.acquireSlot, .createDirEv ("sessions/" ++ envBadWav.session_id),
        .createDirEv ("sessions/" ++ envBadWav.session_id),
        .writeFileEv ("sessions/" ++ envBadWav.session_id ++ "/recording.wav"),
        .releaseSlot, .removeDirEv ("sessions/" ++ envBadWav.session_id)]) :=
  ⟨(C3_amended_validation_order envOkEmpty _ stIdle fsEmpty).1 _ (by decide),
   (C3_amended_validation_order envOkEmpty _ stIdle fsEmpty).2.1 .English _ (by decide)
     (by decide),
   (C3_amended_validation_order envBadWav payloadEn stIdle fsEmpty).2.2 .English [] _
     (by decide) (by decide) rfl (by decide)⟩

/-! ### C10 -/

theorem tryFrom_error_shape (v : String) (e : SpeechError)
    (h : SpeechLanguage.tryFrom v = .error e) : ∃ m, e = .UnsupportedLanguage m := by
  unfold SpeechLanguage.tryFrom at h
  dsimp only at h
  split_ifs at h
  simp at h
  exact ⟨_, h.symm⟩

theorem decode_b64_error_shape (d : String) (e : SpeechError)
    (h : decode_audio_base64 d = .error e) : e = .Audio "Base64 decode failed" := by
  unfold decode_audio_base64 at h
  dsimp only at h
  split at h
  · simp at h
  · simp at h
    exact h.symm

theorem transcribe_blocking_cancelled_iff (wav : Except String WavData)
    (engine : EngineOutcome) (c : Bool) :
    transcribe_blocking wav engine c = .error .TranscriptionCancelled ↔
      ((∃ sr, decode_wav_to_mono_f32 wav = .ok sr) ∧ (∃ m, engine = .failure m) ∧ c = true) := by
  constructor
  · intro h
    unfold transcribe_blocking at h
    cases hd : decode_wav_to_mono_f32 wav with
    | error e =>
      rw [hd] at h
      simp at h
      rcases decode_wav_error_shape wav e hd with ⟨m, hm⟩ | ⟨b, hb⟩
      · simp [hm] at h
      · simp [hb] at h
    | ok sr =>
      obtain ⟨samples, rate⟩ := sr
      rw [hd] at h
      cases engine with
      | ctxError m => simp at h
      | failure m =>
        dsimp only at h
        split_ifs at h with hc
        · exact ⟨⟨(samples, rate), rfl⟩, ⟨m, rfl⟩, hc⟩
        · simp at h
      | success segs => simp at h
  · rintro ⟨⟨sr, hd⟩, ⟨m, hm⟩, hc⟩
    obtain ⟨samples, rate⟩ := sr
    subst hm
    subst hc
    unfold transcribe_blocking
    rw [hd]
    rfl

/-- C10: the distinct cancelled error is returned exactly when the
engine inference call fails while the cancellation flag is set; when the
engine call succeeds, the transcribe call completes and the new session
is inserted at the head of the store even if the flag was set during the
run; and whenever the coordinator surfaces the cancelled error, the
engine call had failed with the flag set. -/
theorem C10_cancellation_surface :
    (∀ (wav : Except String WavData) (engine : EngineOutcome) (c : Bool),
      transcribe_blocking wav engine c = .error .TranscriptionCancelled ↔
        ((∃ sr, decode_wav_to_mono_f32 wav = .ok sr) ∧ (∃ m, engine = .failure m) ∧
          c = true)) ∧
    (∀ env payload st fs lang bytes sr segs,
      SpeechLanguage.tryFrom payload.language = .ok lang →
      decode_audio_base64 payload.audio_base64 = .ok bytes →
      st.active_transcription = none →
      decode_wav_to_mono_f32 env.wav = .ok sr →
      env.engine = .success segs →
      ∃ s, (transcribe_audio env payload st fs).1 = .ok s ∧
        (transcribe_audio env payload st fs).2.1.sessions = s :: st.sessions) ∧
    (∀ env payload st fs,
      (transcribe_audio env payload st fs).1 = .error .TranscriptionCancelled →
      (∃ m, env.engine = .failure m) ∧ env.cancelAtCheck = true) := by
  refine ⟨transcribe_blocking_cancelled_iff, ?_, ?_⟩
  · intro env payload st fs lang bytes sr segs hl hb hnone hd hengine
    obtain ⟨samples, rate⟩ := sr
    have hblk : transcribe_blocking env.wav env.engine env.cancelAtCheck
        = .ok (assembleResult segs) := by
      unfold transcribe_blocking
      rw [hd, hengine]
    unfold transcribe_audio
    rw [hl, hb, hnone, hblk]
    exact ⟨_, rfl, rfl⟩
  · intro env payload st fs h
    unfold transcribe_audio at h
    cases h1 : SpeechLanguage.tryFrom payload.language with
    | error e =>
      rw [h1] at h
      simp at h
      obtain ⟨m, hm⟩ := tryFrom_error_shape _ _ h1
      simp [hm] at h
    | ok lang =>
      rw [h1] at h
      cases h2 : decode_audio_base64 payload.audio_base64 with
      | error e =>
        rw [h2] at h
        simp at h
        have := decode_b64_error_shape _ _ h2
        simp [this] at h
      | ok bytes =>
        rw [h2] at h
        cases h3 : st.active_transcription with
        | some a =>
          rw [h3] at h
          simp at h
        | none =>
          rw [h3] at h
          cases h4 : transcribe_blocking env.wav env.engine env.cancelAtCheck with
          | error e =>
            rw [h4] at h
            simp at h
            rw [h] at h4
            have := (transcribe_blocking_cancelled_iff _ _ _).mp h4
            exact ⟨this.2.1, this.2.2⟩
          | ok r =>
            rw [h4] at h
            simp at h

def envOkCancel : TranscribeEnv := { envOkEmpty with cancelAtCheck := true }

def envFailCancel : TranscribeEnv :=
  { envOkEmpty with engine := .failure "boom", cancelAtCheck := true }

/-- Witness for C10: a failing engine call with the flag set yields the
cancelled error; a successful engine call completes even with the flag
set; a concrete coordinator run that surfaced the cancelled error had a
failed engine call with the flag set. -/
theorem C10_cancellation_surface_witness :
    (transcribe_blocking (.ok wavEmptyFloat) (.failure "boom") true
      = .error .TranscriptionCancelled) ∧
    (∃ s, (transcribe_audio envOkCancel payloadEn stIdle fsEmpty).1 = .ok s ∧
      (transcribe_audio envOkCancel payloadEn stIdle fsEmpty).2.1.sessions
        = s :: stIdle.sessions) ∧
    ((∃ m, envFailCancel.engine = .failure m) ∧ envFailCancel.cancelAtCheck = true) :=
  ⟨(C10_cancellation_surface.1 (.ok wavEmptyFloat) (.failure "boom") true).mpr
      ⟨⟨([], 16000), rfl⟩, ⟨"boom", rfl⟩, rfl⟩,
   C10_cancellation_surface.2.1 envOkCancel payloadEn stIdle fsEmpty .English [] ([], 16000)
      [] (by decide) (by decide) rfl rfl rfl,
   C10_cancellation_surface.2.2 envFailCancel payloadEn stIdle fsEmpty (by decide)⟩

/-! ### C6 -/

theorem decode_prefix_b64 (s : String) (l1 : List Char) (b : List Byte)
    (hdata : s.data = l1 ++ ',' :: b64encodeList b) (hn : ',' ∉ l1) :
    decode_audio_base64 s = .ok b := by
  unfold decode_audio_base64
  dsimp only
  rw [hdata, splitOnceComma_append l1 _ hn]
  dsimp only
  rw [b64_roundtrip]

theorem decode_backup_audio (s : SpeechSession) (b : List Byte) :
    decode_audio_base64 (backupOfBytes s b).audio_base64 = .ok b := by
  unfold backupOfBytes
  dsimp only
  split
  · apply decode_prefix_b64 _ "data:audio/wav;base64".data b ?_ (by decide)
    rw [String.data_append, String.data_append, String.data_append]
    have h1 : ("data:".data ++ "audio/wav".data) ++ ";base64,".data
        = "data:audio/wav;base64".data ++ [','] := by decide
    rw [h1, List.append_assoc]
    rfl
  · apply decode_prefix_b64 _ "data:application/octet-stream;base64".data b ?_ (by decide)
    rw [String.data_append, String.data_append, String.data_append]
    have h1 : ("data:".data ++ "application/octet-stream".data) ++ ";base64,".data
        = "data:application/octet-stream;base64".data ++ [','] := by decide
    rw [h1, List.append_assoc]
    rfl

theorem allReadable_spec (st : SpeechState) (fs : Fs) (h : allReadable st fs = true) :
    ∀ s ∈ st.sessions, ∃ b, fs.readFile s.audio_path = some (.bytes b) := by
  intro s hs
  have hx := List.all_eq_true.mp h s hs
  cases hr : fs.readFile s.audio_path with
  | none => rw [hr] at hx; simp at hx
  | some d =>
    cases d with
    | bytes b => exact ⟨b, rfl⟩
    | text t => rw [hr] at hx; simp at hx
    | segs l => rw [hr] at hx; simp at hx

theorem exportLoop_ok (fs : Fs) : ∀ (sessions : List SpeechSession),
    (∀ s ∈ sessions, ∃ b, fs.readFile s.audio_path = some (.bytes b)) →
    exportLoop fs sessions
      = .ok (sessions.map (fun s => backupOfBytes s (bytesAt fs s.audio_path))) := by
  intro sessions
  induction sessions with
  | nil => intro _; rfl
  | cons s rest ih =>
    intro hall
    obtain ⟨b, hb⟩ := hall s (by simp)
    unfold exportLoop
    rw [hb, ih (fun x hx => hall x (List.mem_cons_of_mem _ hx))]
    simp [bytesAt, hb]

/-- The session record import builds for one exported session. -/
def convOf (fs : Fs) (s : SpeechSession) : SpeechSession :=
  { id := s.id, title := s.title, language := s.language, transcript := s.transcript,
    segments := s.segments,
    audio_path := "sessions/" ++ s.id ++ "/" ++
      sanitize_audio_filename (backupOfBytes s (bytesAt fs s.audio_path)).audio_filename,
    created_at := s.created_at }

theorem importLoop_ok (fs : Fs) : ∀ (origs : List SpeechSession) (acc : List SpeechSession)
    (act : Option ActiveTranscription) (fsx : Fs) (n : Nat),
    (∀ s ∈ origs, ∀ t ∈ acc, t.id ≠ s.id) →
    origs.Pairwise (fun a b => a.id ≠ b.id) →
    (importLoop (origs.map (fun s => backupOfBytes s (bytesAt fs s.audio_path)))
        { sessions := acc, active_transcription := act } fsx n).1 = .ok (n + origs.length) ∧
    (importLoop (origs.map (fun s => backupOfBytes s (bytesAt fs s.audio_path)))
        { sessions := acc, active_transcription := act } fsx n).2.1
      = { sessions := acc ++ origs.map (convOf fs), active_transcription := act } := by
  intro origs
  induction origs with
  | nil =>
    intro acc act fsx n _ _
    exact ⟨rfl, by simp [importLoop]⟩
  | cons s rest ih =>
    intro acc act fsx n hdisj hpw
    have herase : acc.eraseP (fun t => t.id == (backupOfBytes s (bytesAt fs s.audio_path)).id)
        = acc := by
      apply List.eraseP_of_forall_not
      intro t ht
      simp only [beq_iff_eq]
      exact fun hc => hdisj s (by simp) t ht hc
    simp only [List.map_cons, importLoop, decode_backup_audio]
    rw [herase]
    have hdisj' : ∀ x ∈ rest, ∀ t ∈ acc ++ [convOf fs s], t.id ≠ x.id := by
      intro x hx t ht
      rcases List.mem_append.mp ht with h | h
      · exact hdisj x (List.mem_cons_of_mem _ hx) t h
      · rw [List.mem_singleton.mp h]
        exact (List.pairwise_cons.mp hpw).1 x hx
    constructor
    · refine ((ih (acc ++ [convOf fs s]) act _ (n + 1) hdisj'
          (List.pairwise_cons.mp hpw).2).1).trans ?_
      exact congrArg Except.ok (by simp only [List.length_cons]; omega)
    · refine ((ih (acc ++ [convOf fs s]) act _ (n + 1) hdisj'
          (List.pairwise_cons.mp hpw).2).2).trans ?_
      congr 1
      simp [List.append_assoc]

theorem import_of_export (fs fs₂ : Fs) (origs : List SpeechSession) (hne : origs ≠ [])
    (hids : origs.Pairwise (fun a b => a.id ≠ b.id))
    (hsorted : origs.Pairwise (fun a b => created_desc a b = true)) :
    (import_sessions_data (origs.map (fun s => backupOfBytes s (bytesAt fs s.audio_path)))
        { sessions := [], active_transcription := none } fs₂).1 = .ok origs.length ∧
    (import_sessions_data (origs.map (fun s => backupOfBytes s (bytesAt fs s.audio_path)))
        { sessions := [], active_transcription := none } fs₂).2.1.sessions
      = origs.map (convOf fs) := by
  obtain ⟨h1, h2⟩ := importLoop_ok fs origs [] none fs₂ 0 (by simp) hids
  unfold import_sessions_data
  have hemp : (origs.map (fun s => backupOfBytes s (bytesAt fs s.audio_path))).isEmpty
      = false := by
    cases origs with
    | nil => exact absurd rfl hne
    | cons a l => rfl
  simp only [hemp, Bool.false_eq_true, if_false]
  set res := importLoop (origs.map (fun s => backupOfBytes s (bytesAt fs s.audio_path)))
    { sessions := [], active_transcription := none } fs₂ 0 with hres
  obtain ⟨r, st', fs'⟩ := res
  simp only at h1 h2
  subst h1
  subst h2
  have hsort : (([] ++ origs.map (convOf fs)) : List SpeechSession).mergeSort created_desc
      = origs.map (convOf fs) := by
    rw [List.nil_append]
    apply List.mergeSort_of_sorted
    rw [List.pairwise_map]
    exact hsorted.imp (fun h => h)
  constructor
  · simp
  · simp only [hsort]

/-- C6: export/import round trip.  For a store whose sessions have
pairwise distinct ids, are ordered newest-first by creation time (the
store invariant), and whose audio artifacts are readable, exporting the
full list succeeds; decoding each exported base64 payload returns
exactly the original audio artifact bytes; and importing the exported
records into an empty store succeeds with the full count and reproduces
the same sequence of ids, titles, transcripts and segment lists. -/
theorem C6_export_import_roundtrip (st : SpeechState) (fs fs₂ : Fs)
    (hread : allReadable st fs = true)
    (hids : st.sessions.Pairwise (fun a b => a.id ≠ b.id))
    (hsorted : st.sessions.Pairwise (fun a b => created_desc a b = true)) :
    export_sessions_data st fs
      = .ok (st.sessions.map (fun s => backupOfBytes s (bytesAt fs s.audio_path))) ∧
    (st.sessions.map (fun s => backupOfBytes s (bytesAt fs s.audio_path))).map
        (fun b => decode_audio_base64 b.audio_base64)
      = st.sessions.map (fun s => .ok (bytesAt fs s.audio_path)) ∧
    (import_sessions_data
        (st.sessions.map (fun s => backupOfBytes s (bytesAt fs s.audio_path)))
        { sessions := [], active_transcription := none } fs₂).1
      = .ok st.sessions.length ∧
    (import_sessions_data
        (st.sessions.map (fun s => backupOfBytes s (bytesAt fs s.audio_path)))
        { sessions := [], active_transcription := none } fs₂).2.1.sessions.map sessionKey
      = st.sessions.map sessionKey := by
  refine ⟨?_, ?_, ?_, ?_⟩
  · exact exportLoop_ok fs st.sessions (allReadable_spec st fs hread)
  · rw [List.map_map]
    apply List.map_congr_left
    intro s _
    exact decode_backup_audio s _
  · cases hnil : st.sessions with
    | nil => rfl
    | cons s0 rest =>
      rw [hnil] at hids hsorted
      exact (import_of_export fs fs₂ (s0 :: rest) (by simp) hids hsorted).1
  · cases hnil : st.sessions with
    | nil => rfl
    | cons s0 rest =>
      rw [hnil] at hids hsorted
      rw [(import_of_export fs fs₂ (s0 :: rest) (by simp) hids hsorted).2]
      rw [List.map_map]
      apply List.map_congr_left
      intro s _
      rfl

def sessionB : SpeechSession :=
  { id := "s2", title := "U", language := .Chinese, transcript := "hi", segments := [],
    audio_path := "sessions/s2/recording.wav", created_at := "2023" }

def stC6 : SpeechState := { sessions := [sessionA, sessionB], active_transcription := none }

def fsC6 : Fs :=
  { sessionsFile := [sessionA, sessionB],
    files := [("a.wav", .bytes [1, 2]), ("sessions/s2/recording.wav", .bytes [255])],
    dirs := [] }

/-- Witness for C6 on a concrete two-session store. -/
theorem C6_export_import_roundtrip_witness :
    export_sessions_data stC6 fsC6
      = .ok (stC6.sessions.map (fun s => backupOfBytes s (bytesAt fsC6 s.audio_path))) ∧
    (stC6.sessions.map (fun s => backupOfBytes s (bytesAt fsC6 s.audio_path))).map
        (fun b => decode_audio_base64 b.audio_base64)
      = stC6.sessions.map (fun s => .ok (bytesAt fsC6 s.audio_path)) ∧
    (import_sessions_data
        (stC6.sessions.map (fun s => backupOfBytes s (bytesAt fsC6 s.audio_path)))
        { sessions := [], active_transcription := none } fsEmpty).1
      = .ok stC6.sessions.length ∧
    (import_sessions_data
        (stC6.sessions.map (fun s => backupOfBytes s (bytesAt fsC6 s.audio_path)))
        { sessions := [], active_transcription := none } fsEmpty).2.1.sessions.map sessionKey
      = stC6.sessions.map sessionKey :=
  C6_export_import_roundtrip stC6 fsC6 fsEmpty (by decide) (by decide) (by decide)
